import Mathlib

/-!
Verification of the zephyr-mcumgr SMP client library.

This file gives a shallow embedding, in Lean 4, of the protocol stack of the
`zephyr-mcumgr` crate: the serial line framing layer
(`src/transport/serial.rs`), the SMP transport (`src/transport/mod.rs`), the
connection layer (`src/connection.rs`), the file-upload chunk budget
(`src/commands/fs.rs`), the MCUboot image parser
(`src/mcuboot/image/mod.rs`), and the firmware-update orchestrator
(`src/client/firmware_update.rs`).  Bytes are modelled as natural numbers,
byte buffers as `List Nat`, machine-integer wraparound as explicit `% 2^w`,
and fallible code as `Except`/`Option`.  Definitions are translated from the
Rust source; the two places where the source only declares an operation
(the serial receive path) are modelled from the written specification and
are marked as such in their doc comments.
-/

namespace ZephyrMcumgr

/-- Big-endian serialization of a 16-bit value, as produced by
`u16::to_be_bytes` in the Rust source. -/
def u16be (n : Nat) : List Nat :=
  [n / 256 % 256, n % 256]

/-- Little-endian serialization of a 16-bit value (`u16::to_le_bytes`). -/
def u16le (n : Nat) : List Nat :=
  [n % 256, n / 256 % 256]

/-- Little-endian serialization of a 32-bit value (`u32::to_le_bytes`). -/
def u32le (n : Nat) : List Nat :=
  [n % 256, n / 256 % 256, n / 65536 % 256, n / 16777216 % 256]

/-! ## CRC-16/XMODEM

The serial transport protects each SMP frame with `crc::CRC_16_XMODEM`
(polynomial `0x1021`, initial value `0`, no reflection, no xor-out).
-/

/-- One shift step of the CRC-16/XMODEM bit loop: shift left, and xor with
the polynomial `0x1021` when the top bit was set.  All arithmetic is
modulo `2^16`. -/
def crcShift (c : Nat) : Nat :=
  if 32768 ≤ c then (c * 2) % 65536 ^^^ 0x1021 else (c * 2) % 65536

/-- Mix one input byte into a running CRC-16/XMODEM value. -/
def crcByte (c b : Nat) : Nat :=
  crcShift^[8] ((c ^^^ (b % 256) * 256) % 65536)

/-- CRC-16/XMODEM of a byte sequence, starting from the initial value `0`. -/
def crc16 (bs : List Nat) : Nat :=
  bs.foldl crcByte 0

/-! ## Base64 (standard alphabet, with padding)

`send_raw_frame` uses `BASE64_STANDARD.encode_slice`.
-/

/-- ASCII code of character `n` of the standard base64 alphabet
(`A`–`Z`, `a`–`z`, `0`–`9`, `+`, `/`). -/
def base64Char (n : Nat) : Nat :=
  if n < 26 then 65 + n
  else if n < 52 then 97 + (n - 26)
  else if n < 62 then 48 + (n - 52)
  else if n = 62 then 43
  else 47

/-- Standard base64 encoding with `=` padding, over ASCII codes. -/
def base64Encode : List Nat → List Nat
  | b0 :: b1 :: b2 :: rest =>
      base64Char (b0 % 256 / 4) ::
      base64Char ((b0 % 4) * 16 + b1 % 256 / 16) ::
      base64Char ((b1 % 16) * 4 + b2 % 256 / 64) ::
      base64Char (b2 % 64) ::
      base64Encode rest
  | [b0, b1] =>
      [base64Char (b0 % 256 / 4),
       base64Char ((b0 % 4) * 16 + b1 % 256 / 16),
       base64Char ((b1 % 16) * 4),
       61]
  | [b0] =>
      [base64Char (b0 % 256 / 4),
       base64Char ((b0 % 4) * 16),
       61, 61]
  | [] => []

/-- Inverse of the standard base64 alphabet: `some` of the 6-bit value for
an alphabet character, `none` otherwise. -/
def base64CharDec (c : Nat) : Option Nat :=
  if 65 ≤ c ∧ c ≤ 90 then some (c - 65)
  else if 97 ≤ c ∧ c ≤ 122 then some (c - 97 + 26)
  else if 48 ≤ c ∧ c ≤ 57 then some (c - 48 + 52)
  else if c = 43 then some 62
  else if c = 47 then some 63
  else none

/-- Standard base64 decoding (ASCII codes to bytes).  Rejects input whose
length is not a multiple of four, invalid characters, and padding that is
not at the end. -/
def base64Decode : List Nat → Option (List Nat)
  | [] => some []
  | c0 :: c1 :: c2 :: c3 :: rest =>
      match base64CharDec c0, base64CharDec c1 with
      | some v0, some v1 =>
        if c2 = 61 then
          if c3 = 61 ∧ rest = [] then some [v0 * 4 + v1 / 16] else none
        else
          match base64CharDec c2 with
          | some v2 =>
            if c3 = 61 then
              if rest = [] then some [v0 * 4 + v1 / 16, (v1 % 16) * 16 + v2 / 4]
              else none
            else
              match base64CharDec c3 with
              | some v3 =>
                (base64Decode rest).map
                  (fun tl => (v0 * 4 + v1 / 16) :: ((v1 % 16) * 16 + v2 / 4) ::
                             ((v2 % 4) * 64 + v3) :: tl)
              | none => none
          | none => none
      | _, _ => none
  | _ => none

/-! ## Serial line framing: `SerialTransport::send_raw_frame`

`SerialTransport::new(serial, mtu)` allocates a transfer buffer of `mtu`
bytes and a body buffer of `((mtu - 3) / 4) * 3` bytes.  `send_raw_frame`
splits `u16_be(total) || header || payload || crc_be` into body-buffer sized
chunks, base64-encodes each chunk and emits it as one line frame
`marker ++ base64 ++ 0x0A`.
-/

/-- Size of the body buffer allocated by `SerialTransport::new` for a given
MTU: `((mtu - 3) / 4) * 3`. -/
def bodyBufLen (mtu : Nat) : Nat :=
  ((mtu - 3) / 4) * 3

/-- Outcome of `SerialTransport::send_raw_frame`: the bytes written to the
serial stream on success, `dataTooBig` for the `SendError::DataTooBig`
result, and `panic` when the Rust code would panic (body buffer smaller
than the 10-byte first-chunk header). -/
inductive SendOutcome where
  | panic
  | dataTooBig
  | ok (bytes : List Nat)
deriving DecidableEq, Repr

/-- One line frame as written to the serial port: the start marker `06 09`
(or the continuation marker `04 14`), the base64-encoded chunk, and the
terminating `0x0A`. -/
def lineFrame (isFirst : Bool) (assembled : List Nat) : List Nat :=
  (if isFirst then [6, 9] else [4, 20]) ++ base64Encode assembled ++ [10]

/-- The continuation iterations of the `send_raw_frame` loop, with a fuel
argument for structural recursion: each iteration takes up to a full body
buffer of the remaining payload, appends the CRC footer when at least two
body-buffer bytes remain free, and emits one line frame.  Every iteration
with a nonempty body buffer consumes at least one payload byte, so fuel
`data.length` (as passed by `contChunks`) makes this exactly the Rust
loop; a zero-sized body buffer (which would make the Rust loop spin
forever) yields the empty output and is excluded by the hypotheses of
every theorem below. -/
def contChunksFuel (n3 checksum : Nat) : Nat → List Nat → List Nat
  | _, [] => []
  | 0, _ :: _ => []
  | fuel + 1, data =>
    let bodyLen := min n3 data.length
    if bodyLen = 0 then []
    else
      let footer := if 2 ≤ n3 - bodyLen then u16be checksum else []
      lineFrame false (data.take bodyLen ++ footer) ++
        contChunksFuel n3 checksum fuel (data.drop bodyLen)

/-- The continuation iterations of the `send_raw_frame` loop. -/
def contChunks (n3 : Nat) (checksum : Nat) (data : List Nat) : List Nat :=
  contChunksFuel n3 checksum data.length data

/-- Shallow embedding of `SerialTransport::send_raw_frame` for a transport
created with the given `mtu`.  Returns the exact byte stream written to the
serial port. -/
def send_raw_frame (mtu : Nat) (header data : List Nat) : SendOutcome :=
  let n3 := bodyBufLen mtu
  if 65535 < 8 + data.length + 2 then .dataTooBig
  else if n3 < 10 then .panic
  else
    let checksum := crc16 (header ++ data)
    let space := n3 - 10
    let bodyLen := min space data.length
    let footer := if 2 ≤ space - bodyLen then u16be checksum else []
    let first := lineFrame true
      (u16be (8 + data.length + 2) ++ header ++ data.take bodyLen ++ footer)
    .ok (first ++ contChunks n3 checksum (data.drop bodyLen))

/-! ## Serial line framing: receive side

`SerialTransport::recv_raw_frame` is `todo!()` in the source; only its
declaration and its integration tests exist.  The decoder below is
modelled from the specification's decoding contract.
-/

/-- Errors of the modelled serial receive path: `malformed` covers stream
end, bad markers, invalid base64 and inconsistent declared length;
`crcMismatch` a failing CRC check. -/
inductive RecvFrameError where
  | malformed
  | crcMismatch
deriving DecidableEq, Repr

/-- Read one line-frame body: the bytes before the next `0x0A` terminator
and the remaining stream after it, or `none` when no terminator follows. -/
def readLine (stream : List Nat) : Option (List Nat × List Nat) :=
  match stream.dropWhile (fun b => b ≠ 10) with
  | _ :: rest => some (stream.takeWhile (fun b => b ≠ 10), rest)
  | [] => none

/-- Modelled from the spec: the continuation loop of the serial frame
decoder, with a fuel argument for structural recursion (every iteration
consumes at least three stream bytes, so fuel `stream.length` makes this
the full loop).  While the accumulated raw bytes are shorter than the
declared total length plus its own 2-byte prefix, expect a `04 14`
continuation opener, base64 body and `0x0A` terminator, and append the
decoded bytes; fail when the accumulated length overshoots the declared
length. -/
def recvCont (declared : Nat) : Nat → List Nat → List Nat →
    Except RecvFrameError (List Nat)
  | fuel, acc, stream =>
    if declared + 2 ≤ acc.length then
      if acc.length = declared + 2 then .ok acc else .error .malformed
    else
      match fuel, stream with
      | fuel2 + 1, 4 :: 20 :: rest =>
        match readLine rest with
        | some (b64, rest2) =>
          match base64Decode b64 with
          | some bytes => recvCont declared fuel2 (acc ++ bytes) rest2
          | none => .error .malformed
        | none => .error .malformed
      | _, _ => .error .malformed

/-- Modelled from the spec: `SerialTransport::recv_raw_frame` is `todo!()`
in the source.  Following the specification's decoding contract: skip bytes
until a `06 09` start marker, base64-decode the line body up to `0x0A`,
take the first two decoded bytes as the declared big-endian total length,
keep consuming `04 14` continuation line frames until the declared length
(plus its 2-byte prefix) is accumulated, then verify and strip the trailing
CRC-16/XMODEM and return the raw `header || payload` bytes. -/
def recv_raw_frame (stream : List Nat) : Except RecvFrameError (List Nat) :=
  match stream with
  | 6 :: 9 :: rest =>
      (match readLine rest with
       | some (b64, rest2) =>
         match base64Decode b64 with
         | some bytes =>
           match bytes with
           | b0 :: b1 :: _ =>
             let declared := b0 * 256 + b1
             if declared < 2 then .error .malformed
             else
               match recvCont declared rest2.length bytes rest2 with
               | .ok raw =>
                 let msg := (raw.drop 2).take (declared - 2)
                 let crcBytes := (raw.drop 2).drop (declared - 2)
                 if crcBytes = u16be (crc16 msg) then .ok msg
                 else .error .crcMismatch
               | .error e => .error e
           | _ => .error .malformed
         | none => .error .malformed
       | none => .error .malformed)
  | _ :: rest => recv_raw_frame rest
  | [] => .error .malformed

/-! ## SMP transport: header layout, `send_frame` and `receive_frame`

The 8-byte SMP header is bit-packed big-endian (`deku`): the first byte
holds `res` (3 bits), `ver` (2 bits) and `op` (3 bits), followed by
`flags`, `data_length : u16`, `group_id : u16`, `sequence_num` and
`command_id`.
-/

/-- The SMP frame header of `src/transport/mod.rs`. -/
structure SmpHeader where
  res : Nat
  ver : Nat
  op : Nat
  flags : Nat
  dataLength : Nat
  groupId : Nat
  sequenceNum : Nat
  commandId : Nat
deriving DecidableEq, Repr

/-- Serialization of an `SmpHeader` to its 8-byte wire form
(`SmpHeader::to_slice` through `deku`, big-endian). -/
def smpHeaderToBytes (h : SmpHeader) : List Nat :=
  [(h.res % 8) * 32 + (h.ver % 4) * 8 + h.op % 8,
   h.flags % 256,
   h.dataLength / 256 % 256, h.dataLength % 256,
   h.groupId / 256 % 256, h.groupId % 256,
   h.sequenceNum % 256,
   h.commandId % 256]

/-- Parsing of the first 8 bytes of a stream as an `SmpHeader`
(`SmpHeader::from_bytes`; every 8-byte pattern is a valid header — the
callers only parse after checking that 8 bytes are available, so the
fallback for shorter lists is never reached). -/
def headerOfBytes : List Nat → SmpHeader
  | b0 :: b1 :: b2 :: b3 :: b4 :: b5 :: b6 :: b7 :: _ =>
    { res := b0 % 256 / 32
      ver := b0 % 32 / 8
      op := b0 % 8
      flags := b1 % 256
      dataLength := (b2 % 256) * 256 + b3 % 256
      groupId := (b4 % 256) * 256 + b5 % 256
      sequenceNum := b6 % 256
      commandId := b7 % 256 }
  | _ => ⟨0, 0, 0, 0, 0, 0, 0, 0⟩

/-- Errors of `Transport::receive_frame`. -/
inductive ReceiveError where
  | transportError
  | unexpectedResponse
deriving DecidableEq, Repr

/-- Shallow embedding of `Transport::send_frame`: build the SMP header with
`res = 0`, `ver = 0b01`, `op = WRITE (2)` or `READ (0)`, `flags = 0`, and
the payload length as `data_length` (failing with `DataTooBig` when it does
not fit a `u16`), then hand the 8-byte header and payload to
`send_raw_frame`. -/
def send_frame (mtu : Nat) (writeOperation : Bool) (sequenceNum groupId commandId : Nat)
    (data : List Nat) : SendOutcome :=
  if 65535 < data.length then .dataTooBig
  else
    send_raw_frame mtu
      (smpHeaderToBytes
        { res := 0, ver := 1, op := if writeOperation then 2 else 0, flags := 0,
          dataLength := data.length, groupId := groupId,
          sequenceNum := sequenceNum, commandId := commandId })
      data

/-- Modelled from the spec: the body of `Transport::receive_frame` in
`src/transport/mod.rs` is commented out in the source (the stub returns an
empty payload).  Following the specification: decode the next raw frame
(header plus `data_length` payload bytes) from the stream; frames whose
sequence number differs from the outstanding request are silently discarded
and reception continues; on a matching sequence number the op must equal
the matching response op (`WRITE_RSP = 3` for a write, `READ_RSP = 1` for a
read) and group and command id must match, otherwise the call fails with
`UnexpectedResponse`; on a full match the payload is returned. -/
def receive_frameAux (writeOperation : Bool) (sequenceNum groupId commandId : Nat) :
    Nat → List Nat → Except ReceiveError (List Nat)
  | fuel, stream =>
    if stream.length < 8 then .error .transportError
    else
      let hdr := headerOfBytes (stream.take 8)
      let rest := stream.drop 8
      if rest.length < hdr.dataLength then .error .transportError
      else
        let payload := rest.take hdr.dataLength
        let rest2 := rest.drop hdr.dataLength
        if hdr.sequenceNum ≠ sequenceNum then
          match fuel with
          | fuel2 + 1 =>
              receive_frameAux writeOperation sequenceNum groupId commandId fuel2 rest2
          | 0 => .error .transportError
        else
          if hdr.groupId ≠ groupId ∨ hdr.commandId ≠ commandId ∨
              hdr.op ≠ (if writeOperation then 3 else 1) then
            .error .unexpectedResponse
          else
            .ok payload

/-- The frame-matching loop over a byte stream: fuel `stream.length` is
enough for `receive_frameAux` to run the full loop, since every discarded
frame consumes at least its 8 header bytes. -/
def receive_frame (stream : List Nat) (writeOperation : Bool)
    (sequenceNum groupId commandId : Nat) : Except ReceiveError (List Nat) :=
  receive_frameAux writeOperation sequenceNum groupId commandId stream.length stream

/-! ### Frame streams for reasoning about `receive_frame` -/

/-- Field bounds under which an `SmpHeader` is a real wire header (every
field fits its bit width). -/
def SmpHeader.WellFormed (h : SmpHeader) : Prop :=
  h.res < 8 ∧ h.ver < 4 ∧ h.op < 8 ∧ h.flags < 256 ∧ h.dataLength < 65536 ∧
  h.groupId < 65536 ∧ h.sequenceNum < 256 ∧ h.commandId < 256

instance (h : SmpHeader) : Decidable h.WellFormed := by
  unfold SmpHeader.WellFormed
  infer_instance

/-- One raw SMP frame on the byte stream: the 8 header bytes followed by
the payload. -/
def frameBytes (h : SmpHeader) (payload : List Nat) : List Nat :=
  smpHeaderToBytes h ++ payload

/-- A sequence of raw SMP frames, concatenated on the byte stream. -/
def framesBytes : List (SmpHeader × List Nat) → List Nat
  | [] => []
  | q :: rest => frameBytes q.1 q.2 ++ framesBytes rest

/-! ## Connection layer (`src/connection.rs`)

A `Connection` owns a boxed transport, a `next_seqnum : u8` counter and a
64 KiB scratch buffer behind a mutex.  `execute_command` CBOR-encodes the
request, takes the current sequence number and post-increments it with
wraparound, sends the frame, receives the matching response, decodes it
once as the error envelope `{ rc?, err? }` and only otherwise as the typed
response.  The CBOR codec itself is abstracted: the encoder outcome and the
two decoders are parameters of the embedding, and the transport send and
receive outcomes are parameters as well.
-/

/-- SMP version 2 group based error message (`commands::ErrResponseV2`). -/
structure ErrResponseV2 where
  group : Nat
  rc : Int
deriving DecidableEq, Repr

/-- The SMP error envelope (`commands::ErrResponse`), with independently
optional `rc` (v1) and `err` (v2) fields. -/
structure ErrResponse where
  rc : Option Int
  err : Option ErrResponseV2
deriving DecidableEq, Repr

/-- Device-reported SMP error (`smp_errors::DeviceError`), v1 carrying a
bare return code and v2 a group plus return code. -/
inductive DeviceError where
  | v1 (rc : Int)
  | v2 (group : Nat) (rc : Int)
deriving DecidableEq, Repr

/-- Errors of `Connection::execute_command` (`connection::ExecuteError`). -/
inductive ExecuteError where
  | sendFailed
  | receiveFailed
  | encodeFailed
  | decodeFailed
  | errorResponse (e : DeviceError)
deriving DecidableEq, Repr

/-- The mutable state of a `Connection` that the sequence-number claims are
about: the `next_seqnum : u8` counter. -/
structure ConnState where
  nextSeqnum : Nat
deriving DecidableEq, Repr

/-- `Connection::new`: the counter starts at `rand::random::<u8>()`; the
random byte is modelled as an arbitrary seed reduced to a byte. -/
def Connection.new (seed : Nat) : ConnState :=
  ⟨seed % 256⟩

/-- Shallow embedding of `Connection::execute_command`.  `decodeEnv` and
`decodeResp` stand for the two `ciborium::from_reader` calls on the
response slice, `encodeResult` for the outcome of `ciborium::into_writer`
on the request (`none` = encode failure), `sendOk` for the
`send_frame` outcome and `recvResult` for the `receive_frame` outcome.
Returns the call result, the connection state after the call, and the list
of sequence numbers handed to `send_frame` on the wire. -/
def execute_command {R : Type} (decodeEnv : List Nat → Option ErrResponse)
    (decodeResp : List Nat → Option R) (st : ConnState)
    (encodeResult : Option (List Nat)) (sendOk : Bool)
    (recvResult : Option (List Nat)) :
    Except ExecuteError R × ConnState × List Nat :=
  match encodeResult with
  | none => (.error .encodeFailed, st, [])
  | some _data =>
    let seq := st.nextSeqnum
    let st2 : ConnState := ⟨(st.nextSeqnum + 1) % 256⟩
    let result : Except ExecuteError R :=
      if !sendOk then .error .sendFailed
      else
        match recvResult with
        | none => .error .receiveFailed
        | some response =>
          match decodeEnv response with
          | none => .error .decodeFailed
          | some env =>
            match env.err with
            | some e2 => .error (.errorResponse (.v2 e2.group e2.rc))
            | none =>
              match env.rc with
              | some rc => .error (.errorResponse (.v1 rc))
              | none =>
                match decodeResp response with
                | none => .error .decodeFailed
                | some r => .ok r
    (result, st2, [seq])

/-- Shallow embedding of `Connection::execute_raw_command`: no CBOR
encoding step and no error-envelope interpretation; the raw response
payload is returned as-is. -/
def execute_raw_command (st : ConnState) (sendOk : Bool)
    (recvResult : Option (List Nat)) :
    Except ExecuteError (List Nat) × ConnState × List Nat :=
  let seq := st.nextSeqnum
  let st2 : ConnState := ⟨(st.nextSeqnum + 1) % 256⟩
  let result : Except ExecuteError (List Nat) :=
    if !sendOk then .error .sendFailed
    else
      match recvResult with
      | none => .error .receiveFailed
      | some response => .ok response
  (result, st2, [seq])

/-- One call made against a `Connection`, with the environment outcomes
that drive it: either `execute_command` (with the encoder outcome, the
envelope and typed decode results, and the transport outcomes) or
`execute_raw_command`. -/
inductive CallSpec where
  | cmd (encodeResult : Option (List Nat)) (env : Option ErrResponse)
        (resp : Option (List Nat)) (sendOk : Bool) (recvResult : Option (List Nat))
  | raw (sendOk : Bool) (recvResult : Option (List Nat))

/-- State transition and wire sequence numbers of one call. -/
def callStep (st : ConnState) : CallSpec → ConnState × List Nat
  | .cmd enc env resp sendOk recv =>
      (execute_command (fun _ => env) (fun _ => resp) st enc sendOk recv).2
  | .raw sendOk recv =>
      (execute_raw_command st sendOk recv).2

/-- Run a list of calls on one connection, collecting the sequence numbers
used on the wire in order. -/
def runCalls (st : ConnState) : List CallSpec → ConnState × List Nat
  | [] => (st, [])
  | c :: cs =>
      let s := callStep st c
      let r := runCalls s.1 cs
      (r.1, s.2 ++ r.2)

/-- Whether a call reaches `send_frame` (and therefore consumes a sequence
number): every call except an `execute_command` whose CBOR encoding
fails. -/
def emitsSeq : CallSpec → Bool
  | .cmd enc _ _ _ _ => enc.isSome
  | .raw _ _ => true

/-! ## File-upload chunk budget (`src/commands/fs.rs`) -/

/-- Shallow embedding of `file_upload_max_data_chunk_size`: the SMP frame
size minus the SMP header and CBOR overhead bound taken from Zephyr's
`MCUMGR_GRP_FS_DL_CHUNK_SIZE`.  Rust's `usize` subtraction underflows
(panics) below the overhead, modelled as `none`. -/
def file_upload_max_data_chunk_size (smpFrameSize : Nat) : Option Nat :=
  let mcumgrGrpFsMaxOffsetLen := 8
  let mgmtHdrSize := 8
  let cborAndOtherHdr := mgmtHdrSize + (9 + 1) + (1 + 3 + mcumgrGrpFsMaxOffsetLen)
      + (1 + 4 + mcumgrGrpFsMaxOffsetLen) + (1 + 2 + 1) + (1 + 3 + mcumgrGrpFsMaxOffsetLen)
  if smpFrameSize < cborAndOtherHdr then none
  else some (smpFrameSize - cborAndOtherHdr)

/-! ## MCUboot image parser (`src/mcuboot/image/mod.rs`)

`get_image_info` consumes a `Read + Seek` byte source, modelled as a byte
list together with a cursor position.
-/

/-- A `Read + Seek` byte source: the underlying bytes and the cursor. -/
structure Reader where
  data : List Nat
  pos : Nat
deriving DecidableEq, Repr

/-- `read_exact` of `n` bytes: fails when fewer than `n` bytes remain. -/
def readExact (r : Reader) (n : Nat) : Option (List Nat × Reader) :=
  if r.pos + n ≤ r.data.length then
    some ((r.data.drop r.pos).take n, ⟨r.data, r.pos + n⟩)
  else none

/-- `read_u8` of the source. -/
def readU8 (r : Reader) : Option (Nat × Reader) :=
  (readExact r 1).map (fun p => (p.1.getD 0 0, p.2))

/-- `read_u16` (little-endian) of the source. -/
def readU16le (r : Reader) : Option (Nat × Reader) :=
  (readExact r 2).map (fun p => (p.1.getD 0 0 + 256 * p.1.getD 1 0, p.2))

/-- `read_u32` (little-endian) of the source. -/
def readU32le (r : Reader) : Option (Nat × Reader) :=
  (readExact r 4).map
    (fun p => (p.1.getD 0 0 + 256 * p.1.getD 1 0 + 65536 * p.1.getD 2 0
               + 16777216 * p.1.getD 3 0, p.2))

/-- `Seek::seek(SeekFrom::Start(n))`. -/
def seekStart (r : Reader) (n : Nat) : Reader :=
  ⟨r.data, n⟩

/-- `seek_relative(n)`. -/
def seekRelative (r : Reader) (n : Nat) : Reader :=
  ⟨r.data, r.pos + n⟩

/-- The firmware version record of an MCUboot image header. -/
structure ImageVersion where
  major : Nat
  minor : Nat
  revision : Nat
  buildNum : Nat
deriving DecidableEq, Repr

/-- Information extracted from an MCUboot image: version and the SHA-256
identity hash from the TLV trailer. -/
structure ImageInfo where
  version : ImageVersion
  hash : List Nat
deriving DecidableEq, Repr

/-- Errors of `get_image_info` (`mcuboot::ImageParseError`). -/
inductive ImageParseError where
  | unknownImageType
  | tlvMissing
  | idHashMissing
  | readFailed
deriving DecidableEq, Repr

/-- The TLV entry walk of `get_image_info`: while one more TLV element
header still fits (`tlv_read + TLV_INFO_HEADER_SIZE +
TLV_ELEMENT_HEADER_SIZE <= tlv_total`), read the element header
`(type : u8, pad : u8, len : u16_le)`; for `type = 0x10` with `len = 32`
capture the 32 hash bytes, otherwise skip `len` bytes; always advance
`tlv_read` by `len + 4`.  The fuel argument only serves structural
recursion: every iteration advances `tlv_read` by at least 4 and the guard
bounds it by `tlv_total`, so fuel `tlv_total` (as passed by
`get_image_info`) runs the full loop. -/
def tlvWalk (tlvTot : Nat) : Nat → Reader → Nat → Option (List Nat) →
    Except ImageParseError (Option (List Nat))
  | 0, _, tlvRead, idHash =>
    if tlvRead + 4 + 4 ≤ tlvTot then .error .readFailed else .ok idHash
  | fuel2 + 1, r, tlvRead, idHash =>
    if tlvRead + 4 + 4 ≤ tlvTot then
      match readU8 r with
      | none => .error .readFailed
      | some (itType, r1) =>
        match readU8 r1 with
        | none => .error .readFailed
        | some (_pad, r2) =>
          match readU16le r2 with
          | none => .error .readFailed
          | some (itLen, r3) =>
            if itType = 0x10 ∧ itLen = 32 then
              match readExact r3 32 with
              | none => .error .readFailed
              | some (sha, r4) =>
                  tlvWalk tlvTot fuel2 r4 (tlvRead + itLen + 4) (some sha)
            else
              tlvWalk tlvTot fuel2 (seekRelative r3 itLen) (tlvRead + itLen + 4) idHash
    else .ok idHash

/-- Shallow embedding of `get_image_info`: parse the 32-byte MCUboot image
header (magic `0x96f3b83d`, load address, header size, protected TLV size,
image size, flags, version), seek to `hdr_size + protect_tlv_size +
img_size`, check the TLV info magic `0x6907`, read `tlv_total`, walk the
TLV entries, and return the version together with the SHA-256 identity
hash; its absence is the hard error `IdHashMissing`. -/
def get_image_info (data : List Nat) : Except ImageParseError ImageInfo :=
  match readU32le ⟨data, 0⟩ with
  | none => .error .readFailed
  | some (ihMagic, r1) =>
    if ihMagic ≠ 0x96f3b83d then .error .unknownImageType
    else
      match readU32le r1 with
      | none => .error .readFailed
      | some (_ihLoadAddr, r2) =>
        match readU16le r2 with
        | none => .error .readFailed
        | some (ihHdrSize, r3) =>
          match readU16le r3 with
          | none => .error .readFailed
          | some (ihProtectTlvSize, r4) =>
            match readU32le r4 with
            | none => .error .readFailed
            | some (ihImgSize, r5) =>
              match readU32le r5 with
              | none => .error .readFailed
              | some (_ihFlags, r6) =>
                match readU8 r6 with
                | none => .error .readFailed
                | some (major, r7) =>
                  match readU8 r7 with
                  | none => .error .readFailed
                  | some (minor, r8) =>
                    match readU16le r8 with
                    | none => .error .readFailed
                    | some (revision, r9) =>
                      match readU32le r9 with
                      | none => .error .readFailed
                      | some (buildNum, r10) =>
                        let rSeek := seekStart r10 (ihHdrSize + ihProtectTlvSize + ihImgSize)
                        match readU16le rSeek with
                        | none => .error .readFailed
                        | some (itMagic, r11) =>
                          if itMagic ≠ 0x6907 then .error .tlvMissing
                          else
                            match readU16le r11 with
                            | none => .error .readFailed
                            | some (itTlvTot, r12) =>
                              match tlvWalk itTlvTot itTlvTot r12 0 none with
                              | .error e => .error e
                              | .ok (some idHash) =>
                                  .ok ⟨⟨major, minor, revision, buildNum⟩, idHash⟩
                              | .ok none => .error .idHashMissing

/-! ## Firmware update orchestrator (`src/client/firmware_update.rs`)

The orchestrator's device interactions (bootloader query, image-state
query, image upload, state set, reset) are abstracted as an environment of
outcomes; the MCUboot image parse runs the real `get_image_info` embedding
on the firmware bytes.  The embedding records which device operations were
performed, in order.
-/

/-- Bootloader kind (`bootloader::BootloaderType`; MCUboot is the only
supported variant). -/
inductive BootloaderType where
  | mcuBoot
deriving DecidableEq, Repr

/-- One image-slot state entry (`commands::image::ImageStateEntry`). -/
structure ImageStateEntry where
  image : Nat
  slot : Nat
  version : String
  hash : Option (List Nat)
  bootable : Bool
  pending : Bool
  confirmed : Bool
  active : Bool
  permanent : Bool
deriving DecidableEq, Repr

/-- Modelled from the spec: `ImageUploadError` lives in the `client`
module, absent from `src/` (only its uses are present); per the spec it
distinguishes progress-callback cancellation from the other upload
failure modes. -/
inductive ImageUploadError where
  | progressCallbackError
  | uploadFailed (e : ExecuteError)
deriving DecidableEq, Repr

/-- Errors of the firmware-update orchestrator
(`client::firmware_update::FirmwareUpdateError`). -/
inductive FirmwareUpdateError where
  | progressCallbackError
  | bootloaderDetectionFailed (e : ExecuteError)
  | bootloaderNotSupported (name : String)
  | invalidMcuBootFirmwareImage (e : ImageParseError)
  | getStateFailed (e : ExecuteError)
  | imageUploadFailed (e : ImageUploadError)
  | setStateFailed (e : ExecuteError)
  | rebootFailed (e : ExecuteError)
  | alreadyInstalled
deriving DecidableEq, Repr

/-- Modelled from the spec: the `smp_errors::DeviceError` module is absent
from `src/`; per the spec, `command_not_supported` holds for SMP v1
`rc = 8` (`ENOTSUP`), or SMP v2 with group `0` and `rc = 8`. -/
def ExecuteError.command_not_supported : ExecuteError → Bool
  | .errorResponse (.v1 rc) => rc == 8
  | .errorResponse (.v2 group rc) => group == 0 && rc == 8
  | _ => false

/-- Configurable parameters of `firmware_update`
(`FirmwareUpdateParams`). -/
structure FirmwareUpdateParams where
  bootloaderType : Option BootloaderType
  skipReboot : Bool
  forceConfirm : Bool
  upgradeOnly : Bool
deriving DecidableEq, Repr

/-- Outcomes of the device interactions that `firmware_update` performs,
in the roles they play: the bootloader query (already composed with
`get_bootloader_type`, whose failure carries the unsupported bootloader's
name), the first image-state query, the image upload, the state set, the
recovery image-state re-query, and the reset. -/
structure DeviceEnv where
  bootloaderInfo : Except ExecuteError (Except String BootloaderType)
  imageState : Except ExecuteError (List ImageStateEntry)
  uploadResult : Except ImageUploadError Unit
  setStateResult : Except ExecuteError Unit
  imageState2 : Except ExecuteError (List ImageStateEntry)
  resetResult : Except ExecuteError Unit

/-- The device operations `firmware_update` can perform, as recorded in
its action trace. -/
inductive Action where
  | detectBootloader
  | queryState
  | upload
  | setState
  | reset
deriving DecidableEq, Repr

/-- Shallow embedding of the firmware-update orchestrator
(`client/firmware_update.rs`), run without a progress callback: detect the
bootloader unless given, query the image state, parse the firmware with
`get_image_info`, short-circuit with `AlreadyInstalled` when the active
`image == 0, slot == 0` entry's hash equals the parsed identity hash,
upload, set the image state (with the recovery-shell re-query fallback on
`command_not_supported`), and reboot unless `skip_reboot`.  Returns the
result together with the trace of device operations performed. -/
def firmware_update (params : FirmwareUpdateParams) (dev : DeviceEnv)
    (firmware : List Nat) : Except FirmwareUpdateError Unit × List Action :=
  let finish := fun (acts : List Action) =>
    if params.skipReboot then ((.ok () : Except FirmwareUpdateError Unit), acts)
    else
      match dev.resetResult with
      | .error e => (.error (.rebootFailed e), acts ++ [.reset])
      | .ok _ => (.ok (), acts ++ [.reset])
  let afterBootloader := fun (bt : BootloaderType) (acts : List Action) =>
    let acts1 := acts ++ [Action.queryState]
    match dev.imageState with
    | .error e => ((.error (.getStateFailed e) : Except FirmwareUpdateError Unit), acts1)
    | .ok imageState =>
      match get_image_info firmware with
      | .error e => (.error (.invalidMcuBootFirmwareImage e), acts1)
      | .ok info =>
        let activeImage := imageState.find? (fun img => img.image == 0 && img.slot == 0)
        if (activeImage.bind (fun img => img.hash)) = some info.hash then
          (.error .alreadyInstalled, acts1)
        else
          let acts2 := acts1 ++ [Action.upload]
          match dev.uploadResult with
          | .error .progressCallbackError => (.error .progressCallbackError, acts2)
          | .error e => (.error (.imageUploadFailed e), acts2)
          | .ok _ =>
            let acts3 := acts2 ++ [Action.setState]
            match dev.setStateResult with
            | .ok _ => finish acts3
            | .error e =>
              if bt = BootloaderType.mcuBoot && e.command_not_supported then
                let acts4 := acts3 ++ [Action.queryState]
                match dev.imageState2 with
                | .error e2 => (.error (.getStateFailed e2), acts4)
                | .ok entries2 =>
                  if entries2.any (fun img =>
                      img.image == 0 && img.slot == 0 && img.hash == some info.hash) then
                    finish acts4
                  else (.error (.setStateFailed e), acts4)
              else (.error (.setStateFailed e), acts3)
  match params.bootloaderType with
  | some bt => afterBootloader bt []
  | none =>
    match dev.bootloaderInfo with
    | .error e => (.error (.bootloaderDetectionFailed e), [.detectBootloader])
    | .ok (.error name) => (.error (.bootloaderNotSupported name), [.detectBootloader])
    | .ok (.ok bt) => afterBootloader bt [.detectBootloader]

/-! # Theorems -/

instance {ε α : Type} [DecidableEq ε] [DecidableEq α] : DecidableEq (Except ε α) :=
  fun a b =>
    match a, b with
    | .ok x, .ok y =>
        if h : x = y then .isTrue (by rw [h]) else .isFalse (fun hc => h (Except.ok.inj hc))
    | .error x, .error y =>
        if h : x = y then .isTrue (by rw [h]) else .isFalse (fun hc => h (Except.error.inj hc))
    | .ok _, .error _ => .isFalse (fun hc => Except.noConfusion hc)
    | .error _, .ok _ => .isFalse (fun hc => Except.noConfusion hc)

/-! ## C7: file-upload chunk budget -/

/-- C7: for every `smp_frame_size` on which the Rust subtraction is
defined, `file_upload_max_data_chunk_size(smp_frame_size)` equals
`smp_frame_size` minus the overhead
`8 + (9+1) + (1+3+8) + (1+4+8) + (1+2+1) + (1+3+8) = 59`. -/
theorem file_upload_chunk_budget (smpFrameSize : Nat) (h : 59 ≤ smpFrameSize) :
    file_upload_max_data_chunk_size smpFrameSize = some (smpFrameSize - 59) := by
  simp only [file_upload_max_data_chunk_size]
  norm_num
  omega

/-- Witness for C7 at the default SMP frame size 256: the chunk budget is
`256 - 59 = 197`. -/
theorem file_upload_chunk_budget_witness :
    file_upload_max_data_chunk_size 256 = some 197 :=
  file_upload_chunk_budget 256 (by norm_num)

/-! ## C4: `DataTooBig` boundary -/

/-- C4: `send_raw_frame` fails with `SendError::DataTooBig` exactly when
`header.len (8) + payload.len + 2` exceeds `65535` (for any MTU, since the
size check precedes everything else in the first loop iteration), and for
any MTU whose body buffer is large enough to hold the first-chunk header,
a payload of exactly `65525` bytes is sent successfully. -/
theorem send_raw_frame_data_too_big (mtu : Nat) (header data : List Nat) :
    (send_raw_frame mtu header data = .dataTooBig ↔ 65535 < 8 + data.length + 2) ∧
    (10 ≤ bodyBufLen mtu → data.length = 65525 →
      ∃ out, send_raw_frame mtu header data = .ok out) := by
  constructor
  · constructor
    · intro h
      by_cases hc : 65535 < 8 + data.length + 2
      · exact hc
      · exfalso
        simp only [send_raw_frame] at h
        rw [if_neg hc] at h
        by_cases h2 : bodyBufLen mtu < 10
        · rw [if_pos h2] at h
          exact absurd h (by simp)
        · rw [if_neg h2] at h
          exact absurd h (by simp)
    · intro hc
      simp only [send_raw_frame]
      rw [if_pos hc]
  · intro h10 hlen
    simp only [send_raw_frame,
      if_neg (show ¬65535 < 8 + data.length + 2 by omega),
      if_neg (show ¬bodyBufLen mtu < 10 by omega)]
    exact ⟨_, rfl⟩

/-- Witness for C4: with the body buffer of a 127-byte MTU, a payload of
exactly `65525` bytes is accepted, and the `DataTooBig` characterization
holds at that input. -/
theorem send_raw_frame_data_too_big_witness :
    (send_raw_frame 127 (List.replicate 8 0) (List.replicate 65525 0) = .dataTooBig ↔
      65535 < 8 + (List.replicate 65525 0).length + 2) ∧
    (∃ out, send_raw_frame 127 (List.replicate 8 0) (List.replicate 65525 0) = .ok out) := by
  have h := send_raw_frame_data_too_big 127 (List.replicate 8 0) (List.replicate 65525 0)
  exact ⟨h.1, h.2 (by norm_num [bodyBufLen]) (List.length_replicate 65525 0)⟩

/-! ## C3 and C1: the dropped CRC

When the last chunk of payload data leaves fewer than two free bytes in
the body buffer, the `send_raw_frame` loop exits without ever emitting the
CRC footer, although the length prefix of the first chunk counts it.  At
MTU 19 the body buffer holds 12 bytes, the first chunk carries the 10-byte
prefix/header plus 2 payload bytes, so a 2-byte payload fills it exactly.
-/

/-- The failing header: eight zero bytes. -/
def bugHeader : List Nat := List.replicate 8 0

/-- The failing payload: two bytes, exactly filling the first line frame's
body at MTU 19. -/
def bugPayload : List Nat := [0, 0]

/-- The byte stream `send_raw_frame` emits at MTU 19 for `bugHeader` and
`bugPayload`: a single line frame whose raw body is the length prefix, the
header and the payload, with no CRC. -/
def bugStream : List Nat := lineFrame true (u16be 12 ++ bugHeader ++ bugPayload)

/-- C3 (refutation at a concrete input): at MTU 19 with a 2-byte payload,
`send_raw_frame` emits a single line frame whose base64-decoded body is
`u16_be(12) || header || payload` — the CRC-16/XMODEM footer, counted by
the declared length 12, is missing, so the decoded concatenation is not
`u16_be(total) || header || payload || crc_be`. -/
theorem send_raw_frame_omits_crc :
    send_raw_frame 19 bugHeader bugPayload = .ok bugStream ∧
    u16be 12 ++ bugHeader ++ bugPayload ≠
      u16be (8 + bugPayload.length + 2) ++ bugHeader ++ bugPayload ++
        u16be (crc16 (bugHeader ++ bugPayload)) := by
  exact ⟨by decide, by decide⟩

/-- C1 (refutation at a concrete input): decoding the byte stream that
`send_raw_frame` produced at MTU 19 for `(bugHeader, bugPayload)` does not
yield `(bugHeader, bugPayload)`: the stream ends before the declared
length is satisfied and the decoder fails. -/
theorem recv_of_send_raw_frame_fails :
    send_raw_frame 19 bugHeader bugPayload = .ok bugStream ∧
    recv_raw_frame bugStream = .error .malformed := by
  exact ⟨by decide, by decide⟩

/-! ## C2: `receive_frame` frame matching -/

theorem headerOfBytes_toBytes (h : SmpHeader) (hw : h.WellFormed) :
    headerOfBytes (smpHeaderToBytes h) = h := by
  obtain ⟨h1, h2, h3, h4, h5, h6, h7, h8⟩ := hw
  rcases h with ⟨res, ver, op, flags, dl, g, s, c⟩
  simp only [SmpHeader.WellFormed] at *
  simp only [smpHeaderToBytes, headerOfBytes, SmpHeader.mk.injEq]
  refine ⟨?_, ?_, ?_, ?_, ?_, ?_, ?_, ?_⟩ <;> omega

/-- Unrolling `receive_frameAux` over one leading raw frame of the
stream. -/
theorem receive_frameAux_peel (w : Bool) (seq g c fuel : Nat) (h : SmpHeader)
    (p s : List Nat) (hw : h.WellFormed) (hlen : p.length = h.dataLength) :
    receive_frameAux w seq g c fuel (frameBytes h p ++ s) =
      if h.sequenceNum ≠ seq then
        (match fuel with
         | fuel2 + 1 => receive_frameAux w seq g c fuel2 s
         | 0 => .error .transportError)
      else if h.groupId ≠ g ∨ h.commandId ≠ c ∨ h.op ≠ (if w then 3 else 1) then
        .error .unexpectedResponse
      else .ok p := by
  have hhl : (smpHeaderToBytes h).length = 8 := by simp [smpHeaderToBytes]
  have hassoc : frameBytes h p ++ s = smpHeaderToBytes h ++ (p ++ s) := by
    simp [frameBytes, List.append_assoc]
  rw [receive_frameAux, hassoc]
  have hlen1 : (smpHeaderToBytes h ++ (p ++ s)).length = 8 + (p.length + s.length) := by
    simp [hhl]
  rw [if_neg (by omega)]
  have htake : (smpHeaderToBytes h ++ (p ++ s)).take 8 = smpHeaderToBytes h :=
    List.take_left' hhl
  have hdrop : (smpHeaderToBytes h ++ (p ++ s)).drop 8 = p ++ s :=
    List.drop_left' hhl
  simp only [htake, hdrop, headerOfBytes_toBytes h hw]
  rw [if_neg (by simp only [List.length_append]; omega)]
  have htake2 : (p ++ s).take h.dataLength = p := List.take_left' hlen
  have hdrop2 : (p ++ s).drop h.dataLength = s := List.drop_left' hlen
  simp only [htake2, hdrop2]

theorem framesBytes_length_ge (l : List (SmpHeader × List Nat)) :
    l.length ≤ (framesBytes l).length := by
  induction l with
  | nil => simp [framesBytes]
  | cons q qs ih =>
    simp only [framesBytes, frameBytes, List.length_cons, List.length_append]
    have : (smpHeaderToBytes q.1).length = 8 := by simp [smpHeaderToBytes]
    omega

theorem receive_frameAux_filters (w : Bool) (seq g c : Nat)
    (pre : List (SmpHeader × List Nat)) (h : SmpHeader) (p trailing : List Nat)
    (fuel : Nat)
    (hpre : ∀ q ∈ pre, q.1.WellFormed ∧ q.2.length = q.1.dataLength ∧
      q.1.sequenceNum ≠ seq)
    (hw : h.WellFormed) (hlen : p.length = h.dataLength) (hseq : h.sequenceNum = seq)
    (hf : pre.length ≤ fuel) :
    receive_frameAux w seq g c fuel (framesBytes pre ++ (frameBytes h p ++ trailing)) =
      if h.groupId = g ∧ h.commandId = c ∧ h.op = (if w then 3 else 1) then .ok p
      else .error .unexpectedResponse := by
  induction pre generalizing fuel with
  | nil =>
    simp only [framesBytes, List.nil_append]
    rw [receive_frameAux_peel w seq g c fuel h p trailing hw hlen]
    rw [if_neg (show ¬h.sequenceNum ≠ seq by simp [hseq])]
    by_cases hcond : h.groupId = g ∧ h.commandId = c ∧ h.op = (if w then 3 else 1)
    · rw [if_pos hcond, if_neg (by push_neg; exact ⟨hcond.1, hcond.2.1, hcond.2.2⟩)]
    · rw [if_neg hcond, if_pos (by tauto)]
  | cons q qs ih =>
    obtain ⟨hqw, hqlen, hqseq⟩ := hpre q (List.mem_cons_self q qs)
    rcases fuel with - | fuel2
    · simp at hf
    · have hassoc : framesBytes (q :: qs) ++ (frameBytes h p ++ trailing) =
          frameBytes q.1 q.2 ++ (framesBytes qs ++ (frameBytes h p ++ trailing)) := by
        simp [framesBytes, List.append_assoc]
      rw [hassoc,
        receive_frameAux_peel w seq g c (fuel2 + 1) q.1 q.2 _ hqw hqlen,
        if_pos hqseq]
      exact ih fuel2 (fun r hr => hpre r (List.mem_cons_of_mem q hr))
        (by simp at hf; omega)

/-- C2: `receive_frame` returns a payload only for a received frame whose
sequence number matches the outstanding request: any prefix of raw frames
with non-matching sequence numbers is silently discarded and reception
continues, and the first frame with the matching sequence number yields its
payload when its op equals the matching response op (`WRITE_RSP = 3` for a
write request, `READ_RSP = 1` for a read request) and its group and
command id match, and the failure `UnexpectedResponse` otherwise. -/
theorem receive_frame_filters (w : Bool) (seq g c : Nat)
    (pre : List (SmpHeader × List Nat)) (h : SmpHeader) (p trailing : List Nat)
    (hpre : ∀ q ∈ pre, q.1.WellFormed ∧ q.2.length = q.1.dataLength ∧
      q.1.sequenceNum ≠ seq)
    (hw : h.WellFormed) (hlen : p.length = h.dataLength) (hseq : h.sequenceNum = seq) :
    receive_frame (framesBytes pre ++ (frameBytes h p ++ trailing)) w seq g c =
      if h.groupId = g ∧ h.commandId = c ∧ h.op = (if w then 3 else 1) then .ok p
      else .error .unexpectedResponse := by
  unfold receive_frame
  apply receive_frameAux_filters w seq g c pre h p trailing _ hpre hw hlen hseq
  calc pre.length ≤ (framesBytes pre).length := framesBytes_length_ge pre
    _ ≤ (framesBytes pre ++ (frameBytes h p ++ trailing)).length := by
        simp only [List.length_append]
        omega

/-- Witness for C2, mirroring the spec's sequence-mismatch scenario: a
write-response frame with sequence number `0x7F` is discarded, and the
following frame with the matching sequence number `0x80`, op `WRITE_RSP`,
group 0 and command 0 yields its payload `[42]`. -/
theorem receive_frame_filters_witness :
    receive_frame (framesBytes [(⟨0, 1, 3, 0, 2, 0, 127, 0⟩, [7, 7])] ++
        (frameBytes ⟨0, 1, 3, 0, 1, 0, 128, 0⟩ [42] ++ [])) true 128 0 0 =
      .ok [42] := by
  rw [receive_frame_filters true 128 0 0 [(⟨0, 1, 3, 0, 2, 0, 127, 0⟩, [7, 7])]
    ⟨0, 1, 3, 0, 1, 0, 128, 0⟩ [42] [] (by decide) (by decide) (by decide) (by decide)]
  decide

/-! ## C5, C10: sequence-number progression -/

/-- The wire sequence numbers of a run of calls from counter value `n`:
one per call that reaches `send_frame`, counting up from `n` modulo 256. -/
theorem runCalls_events (n : Nat) (hn : n < 256) (calls : List CallSpec) :
    (runCalls ⟨n⟩ calls).2 =
      (List.range (calls.countP emitsSeq)).map (fun i => (n + i) % 256) := by
  induction calls generalizing n with
  | nil => simp [runCalls]
  | cons cHead cs ih =>
    have hmap : ∀ i : Nat, ((n + 1) % 256 + i) % 256 = (n + (i + 1)) % 256 := by
      intro i
      rw [Nat.mod_add_mod, show n + 1 + i = n + (i + 1) from by omega]
    have hcons : ∀ k : Nat,
        (List.range (k + 1)).map (fun i => (n + i) % 256) =
          n :: (List.range k).map (fun i => ((n + 1) % 256 + i) % 256) := by
      intro k
      rw [List.range_succ_eq_map]
      simp only [List.map_cons, List.map_map, Function.comp_def, Nat.succ_eq_add_one]
      rw [Nat.add_zero, Nat.mod_eq_of_lt hn]
      simp only [hmap]
    rcases cHead with ⟨enc, env, resp, sOk, recv⟩ | ⟨sOk, recv⟩
    · rcases enc with - | data
      · simp only [runCalls, callStep, execute_command]
        rw [ih n hn]
        simp [List.countP_cons, emitsSeq]
      · simp only [runCalls, callStep, execute_command]
        rw [ih ((n + 1) % 256) (Nat.mod_lt _ (by norm_num))]
        have hcount : (CallSpec.cmd (some data) env resp sOk recv :: cs).countP emitsSeq =
            cs.countP emitsSeq + 1 := by
          simp [List.countP_cons, emitsSeq]
        rw [hcount, hcons]
        simp
    · simp only [runCalls, callStep, execute_raw_command]
      rw [ih ((n + 1) % 256) (Nat.mod_lt _ (by norm_num))]
      have hcount : (CallSpec.raw sOk recv :: cs).countP emitsSeq =
          cs.countP emitsSeq + 1 := by
        simp [List.countP_cons, emitsSeq]
      rw [hcount, hcons]
      simp

/-- C5: from a connection whose counter was initialized from an arbitrary
random byte, the sequence numbers observed on the wire over any run of
`execute_command`/`execute_raw_command` calls form the arithmetic
progression with step 1 modulo 256 starting at the initial counter (calls
whose CBOR encoding fails reach the wire not at all and do not disturb the
progression). -/
theorem seqnums_form_progression (seed : Nat) (calls : List CallSpec) :
    (runCalls (Connection.new seed) calls).2 =
      (List.range (calls.countP emitsSeq)).map (fun i => (seed + i) % 256) := by
  simp only [Connection.new]
  rw [runCalls_events (seed % 256) (Nat.mod_lt _ (by norm_num)) calls]
  simp only [Nat.mod_add_mod]

/-- C10: `execute_command` with a failed CBOR encoding returns
`EncodeFailed` leaving the counter untouched and the wire silent; with a
successful encoding it uses the current counter value on the wire and
advances it by exactly one modulo 256, whatever the send, receive and
decode outcomes are; `execute_raw_command` always does the latter; the
advanced counter differs from the used one, so two consecutive calls that
both reach the wire use distinct consecutive sequence numbers. -/
theorem execute_advances_seqnum_once {R : Type}
    (decodeEnv : List Nat → Option ErrResponse) (decodeResp : List Nat → Option R)
    (st : ConnState) (data : List Nat) (sendOk : Bool)
    (recvResult : Option (List Nat)) (h : st.nextSeqnum < 256) :
    (execute_command decodeEnv decodeResp st none sendOk recvResult).1 =
        .error .encodeFailed ∧
    (execute_command decodeEnv decodeResp st none sendOk recvResult).2 = (st, []) ∧
    (execute_command decodeEnv decodeResp st (some data) sendOk recvResult).2 =
      (⟨(st.nextSeqnum + 1) % 256⟩, [st.nextSeqnum]) ∧
    (execute_raw_command st sendOk recvResult).2 =
      (⟨(st.nextSeqnum + 1) % 256⟩, [st.nextSeqnum]) ∧
    (st.nextSeqnum + 1) % 256 ≠ st.nextSeqnum ∧
    (∀ c1 c2, emitsSeq c1 → emitsSeq c2 →
      (runCalls st [c1, c2]).2 = [st.nextSeqnum, (st.nextSeqnum + 1) % 256] ∧
      st.nextSeqnum ≠ (st.nextSeqnum + 1) % 256) := by
  refine ⟨rfl, rfl, rfl, rfl, by omega, ?_⟩
  intro c1 c2 h1 h2
  refine ⟨?_, by omega⟩
  rcases st with ⟨n⟩
  rcases c1 with ⟨enc1, env1, resp1, s1, r1⟩ | ⟨s1, r1⟩ <;>
    rcases c2 with ⟨enc2, env2, resp2, s2, r2⟩ | ⟨s2, r2⟩ <;>
    first
    | (rcases enc1 with - | d1
       · exact absurd h1 (by simp [emitsSeq])
       · rcases enc2 with - | d2
         · exact absurd h2 (by simp [emitsSeq])
         · simp [runCalls, callStep, execute_command, execute_raw_command])
    | (rcases enc1 with - | d1
       · exact absurd h1 (by simp [emitsSeq])
       · simp [runCalls, callStep, execute_command, execute_raw_command])
    | (rcases enc2 with - | d2
       · exact absurd h2 (by simp [emitsSeq])
       · simp [runCalls, callStep, execute_command, execute_raw_command])
    | simp [runCalls, callStep, execute_command, execute_raw_command]

/-- Witness for C10, at counter value 7 with a trivial command: the
failing-encode call leaves the state at 7 with no wire traffic, successful
calls use 7 and advance to 8, and two consecutive emitting calls use 7
then 8. -/
theorem execute_advances_seqnum_once_witness :
    (execute_command (fun _ => none) (fun _ => (none : Option Unit)) ⟨7⟩ none true
        none).1 = .error .encodeFailed ∧
    (execute_command (fun _ => none) (fun _ => (none : Option Unit)) ⟨7⟩ none true
        none).2 = (⟨7⟩, []) ∧
    (execute_command (fun _ => none) (fun _ => (none : Option Unit)) ⟨7⟩ (some [1]) true
        none).2 = (⟨8 % 256⟩, [7]) ∧
    (execute_raw_command ⟨7⟩ true none).2 = (⟨8 % 256⟩, [7]) ∧
    8 % 256 ≠ 7 ∧
    (∀ c1 c2, emitsSeq c1 → emitsSeq c2 →
      (runCalls ⟨7⟩ [c1, c2]).2 = [7, 8 % 256] ∧ 7 ≠ 8 % 256) :=
  execute_advances_seqnum_once (fun _ => none) (fun _ => (none : Option Unit))
    ⟨7⟩ [1] true none (by norm_num)

/-! ## C6: error-envelope precedence -/

/-- C6: once a response payload is received, it is decoded as the error
envelope `{ rc?, err? }` first; a present `err` field wins and produces the
V2 `{group, rc}` device error, otherwise a present `rc` field produces the
V1 `{rc}` device error, and only when both are absent is the payload
decoded as the command's typed response and returned as success (or
`DecodeFailed` when that decode fails). -/
theorem error_envelope_precedence {R : Type}
    (decodeEnv : List Nat → Option ErrResponse) (decodeResp : List Nat → Option R)
    (st : ConnState) (data response : List Nat) (env : ErrResponse)
    (henv : decodeEnv response = some env) :
    (∀ g rc, env.err = some ⟨g, rc⟩ →
      (execute_command decodeEnv decodeResp st (some data) true (some response)).1 =
        .error (.errorResponse (.v2 g rc))) ∧
    (env.err = none → ∀ rc, env.rc = some rc →
      (execute_command decodeEnv decodeResp st (some data) true (some response)).1 =
        .error (.errorResponse (.v1 rc))) ∧
    (env.err = none → env.rc = none →
      (execute_command decodeEnv decodeResp st (some data) true (some response)).1 =
        (match decodeResp response with
         | none => .error .decodeFailed
         | some r => .ok r)) := by
  refine ⟨?_, ?_, ?_⟩
  · intro g rc herr
    simp [execute_command, henv, herr]
  · intro herr rc hrc
    simp [execute_command, henv, herr, hrc]
  · intro herr hrc
    simp [execute_command, henv, herr, hrc]

/-- Witness for C6, with an envelope carrying both fields (`rc = 3`,
`err = {group 0, rc 8}`): the V2 error wins. -/
theorem error_envelope_precedence_witness :
    (∀ g rc, (some (ErrResponseV2.mk 0 8) : Option ErrResponseV2) = some ⟨g, rc⟩ →
      (execute_command (fun _ => some ⟨some 3, some ⟨0, 8⟩⟩)
        (fun _ => (none : Option Unit)) ⟨7⟩ (some [1]) true (some [2])).1 =
        .error (.errorResponse (.v2 g rc))) ∧
    ((some (ErrResponseV2.mk 0 8) : Option ErrResponseV2) = none → ∀ rc,
      (some (3 : Int)) = some rc →
      (execute_command (fun _ => some ⟨some 3, some ⟨0, 8⟩⟩)
        (fun _ => (none : Option Unit)) ⟨7⟩ (some [1]) true (some [2])).1 =
        .error (.errorResponse (.v1 rc))) ∧
    ((some (ErrResponseV2.mk 0 8) : Option ErrResponseV2) = none →
      (some (3 : Int)) = none →
      (execute_command (fun _ => some ⟨some 3, some ⟨0, 8⟩⟩)
        (fun _ => (none : Option Unit)) ⟨7⟩ (some [1]) true (some [2])).1 =
        (match (none : Option Unit) with
         | none => .error .decodeFailed
         | some r => .ok r)) :=
  error_envelope_precedence (fun _ => some ⟨some 3, some ⟨0, 8⟩⟩)
    (fun _ => (none : Option Unit)) ⟨7⟩ [1] [2] ⟨some 3, some ⟨0, 8⟩⟩ rfl

/-! ## C8: MCUboot TLV walk -/

@[simp] theorem u16le_length (n : Nat) : (u16le n).length = 2 := rfl

@[simp] theorem u32le_length (n : Nat) : (u32le n).length = 4 := rfl

theorem readExact_at (chunk rest : List Nat) {d : List Nat} {pos : Nat}
    (hne : 0 < chunk.length) (hd : d.drop pos = chunk ++ rest) :
    readExact ⟨d, pos⟩ chunk.length = some (chunk, ⟨d, pos + chunk.length⟩) := by
  have hlen : d.length - pos = chunk.length + rest.length := by
    have h2 := congrArg List.length hd
    simpa using h2
  simp only [readExact]
  rw [if_pos (by omega), hd, List.take_left]

theorem drop_chunk {d tail : List Nat} {pos : Nat} (chunk : List Nat)
    (hd : d.drop pos = chunk ++ tail) : d.drop (pos + chunk.length) = tail := by
  rw [← List.drop_drop, hd, List.drop_left]

theorem readU8_at {d tail : List Nat} {pos b : Nat} (hd : d.drop pos = b :: tail) :
    readU8 ⟨d, pos⟩ = some (b, ⟨d, pos + 1⟩) := by
  have h : readExact ⟨d, pos⟩ 1 = some ([b], ⟨d, pos + 1⟩) := by
    simpa using readExact_at [b] tail (by simp) (by simpa using hd)
  simp [readU8, h]

theorem readU16le_at {d tail : List Nat} {pos v : Nat} (hv : v < 65536)
    (hd : d.drop pos = u16le v ++ tail) :
    readU16le ⟨d, pos⟩ = some (v, ⟨d, pos + 2⟩) := by
  have h : readExact ⟨d, pos⟩ 2 = some (u16le v, ⟨d, pos + 2⟩) := by
    simpa using readExact_at (u16le v) tail (by simp) hd
  simp [readU16le, h, u16le, List.getD]
  omega

theorem readU32le_at {d tail : List Nat} {pos v : Nat} (hv : v < 4294967296)
    (hd : d.drop pos = u32le v ++ tail) :
    readU32le ⟨d, pos⟩ = some (v, ⟨d, pos + 4⟩) := by
  have h : readExact ⟨d, pos⟩ 4 = some (u32le v, ⟨d, pos + 4⟩) := by
    simpa using readExact_at (u32le v) tail (by simp) hd
  simp [readU32le, h, u32le, List.getD]
  omega

/-- One TLV trailer entry, as laid out in an MCUboot image: a type byte, a
pad byte, a little-endian length and the payload. -/
structure TlvEntry where
  ty : Nat
  payload : List Nat
deriving DecidableEq, Repr

/-- Byte layout of one TLV entry. -/
def tlvEntryBytes (e : TlvEntry) : List Nat :=
  e.ty :: 0 :: (u16le e.payload.length ++ e.payload)

/-- Byte layout of a TLV entry list. -/
def tlvEntriesBytes : List TlvEntry → List Nat
  | [] => []
  | e :: es => tlvEntryBytes e ++ tlvEntriesBytes es

/-- Total size of a TLV entry list on disk: 4 header bytes plus the
payload per entry. -/
def tlvEntriesSize : List TlvEntry → Nat
  | [] => 0
  | e :: es => 4 + e.payload.length + tlvEntriesSize es

theorem tlvEntriesSize_ge_length (es : List TlvEntry) :
    es.length ≤ tlvEntriesSize es := by
  induction es with
  | nil => simp [tlvEntriesSize]
  | cons e es ih => simp only [tlvEntriesSize, List.length_cons]; omega

/-- The SHA-256 identity hash that the TLV walk captures: the payload of
the last entry with type `0x10` and length 32, if any. -/
def lastShaHash (entries : List TlvEntry) : Option (List Nat) :=
  entries.foldl
    (fun acc e => if e.ty = 0x10 ∧ e.payload.length = 32 then some e.payload else acc)
    none

/-- A well-formed MCUboot image file: the 32-byte header (28 bytes of
fields and 4 pad bytes) with `hdr_size = 32` and `protect_tlv_size = 0`,
the image body, and the TLV trailer (info magic, total, entries) with
nothing after it.  `tlv_total` counts the 4-byte TLV info header plus the
entries, as MCUboot lays it out. -/
def mkMcubootImage (loadAddr flags : Nat) (v : ImageVersion) (imgBody : List Nat)
    (entries : List TlvEntry) : List Nat :=
  u32le 0x96f3b83d ++ (u32le loadAddr ++ (u16le 32 ++ (u16le 0 ++
    (u32le imgBody.length ++ (u32le flags ++ ([v.major] ++ ([v.minor] ++
    (u16le v.revision ++ (u32le v.buildNum ++ ([0, 0, 0, 0] ++ (imgBody ++
    (u16le 0x6907 ++ (u16le (4 + tlvEntriesSize entries) ++
      tlvEntriesBytes entries)))))))))))))

/-- The TLV walk, on the byte layout of an entry list that the declared
total exactly covers, captures the last SHA-256 entry's payload (and in
particular stops without attempting a read past the end). -/
theorem tlvWalk_spec (d : List Nat) (entries : List TlvEntry)
    (pos tlvTot tlvRead fuel : Nat) (acc : Option (List Nat))
    (hd : d.drop pos = tlvEntriesBytes entries)
    (hinv : tlvTot = tlvRead + 4 + tlvEntriesSize entries)
    (hes : ∀ e ∈ entries, e.payload.length < 65536)
    (hfuel : entries.length ≤ fuel) :
    tlvWalk tlvTot fuel ⟨d, pos⟩ tlvRead acc =
      .ok (entries.foldl
        (fun a e => if e.ty = 0x10 ∧ e.payload.length = 32 then some e.payload else a)
        acc) := by
  induction entries generalizing pos tlvRead fuel acc with
  | nil =>
    have hng : ¬tlvRead + 4 + 4 ≤ tlvTot := by
      simp only [tlvEntriesSize] at hinv
      omega
    rcases fuel with - | f
    · rw [tlvWalk, if_neg hng]
      simp
    · rw [tlvWalk, if_neg hng]
      simp
  | cons e es ih =>
    have helen : e.payload.length < 65536 := hes e (List.mem_cons_self e es)
    have hguard : tlvRead + 4 + 4 ≤ tlvTot := by
      simp only [tlvEntriesSize] at hinv
      omega
    rcases fuel with - | f
    · simp at hfuel
    · rw [tlvWalk, if_pos hguard]
      have hd0 : d.drop pos = e.ty :: (0 :: (u16le e.payload.length ++
          (e.payload ++ tlvEntriesBytes es))) := by
        simpa [tlvEntriesBytes, tlvEntryBytes, List.append_assoc] using hd
      have hd1 : d.drop (pos + 1) = 0 :: (u16le e.payload.length ++
          (e.payload ++ tlvEntriesBytes es)) := by
        simpa using drop_chunk [e.ty] (by simpa using hd0)
      have hd2 : d.drop (pos + 1 + 1) = u16le e.payload.length ++
          (e.payload ++ tlvEntriesBytes es) := by
        simpa using drop_chunk [(0 : Nat)] (by simpa using hd1)
      have hd3 : d.drop (pos + 1 + 1 + 2) = e.payload ++ tlvEntriesBytes es := by
        simpa using drop_chunk (u16le e.payload.length) hd2
      simp only [readU8_at hd0, readU8_at hd1, readU16le_at helen hd2]
      by_cases hsha : e.ty = 0x10 ∧ e.payload.length = 32
      · rw [if_pos hsha]
        have hex : readExact ⟨d, pos + 1 + 1 + 2⟩ 32 =
            some (e.payload, ⟨d, pos + 1 + 1 + 2 + 32⟩) := by
          have h2 := readExact_at e.payload (tlvEntriesBytes es)
            (by omega) hd3
          rw [hsha.2] at h2
          exact h2
        simp only [hex]
        have hd4 : d.drop (pos + 1 + 1 + 2 + 32) = tlvEntriesBytes es := by
          have h3 := drop_chunk e.payload hd3
          rw [hsha.2] at h3
          exact h3
        rw [ih (pos + 1 + 1 + 2 + 32) (tlvRead + e.payload.length + 4) f
          (some e.payload) hd4
          (by simp only [tlvEntriesSize] at hinv; omega)
          (fun q hq => hes q (List.mem_cons_of_mem e hq))
          (by simp at hfuel; omega)]
        simp [List.foldl_cons, hsha.1, hsha.2]
      · rw [if_neg hsha]
        have hseek : seekRelative ⟨d, pos + 1 + 1 + 2⟩ e.payload.length =
            ⟨d, pos + 1 + 1 + 2 + e.payload.length⟩ := rfl
        rw [hseek]
        rw [ih (pos + 1 + 1 + 2 + e.payload.length) (tlvRead + e.payload.length + 4) f
          acc (drop_chunk e.payload hd3)
          (by simp only [tlvEntriesSize] at hinv; omega)
          (fun q hq => hes q (List.mem_cons_of_mem e hq))
          (by simp at hfuel; omega)]
        have hstep : (if e.ty = 0x10 ∧ e.payload.length = 32 then some e.payload
            else acc) = acc := if_neg hsha
        simp [List.foldl_cons, hstep]

/-- C8: on a well-formed MCUboot image, `get_image_info` parses the
header, walks the TLV entries reading an element header only while the
guard `tlv_read + TLV_INFO_HEADER_SIZE + TLV_ELEMENT_HEADER_SIZE <=
tlv_total` holds (so it never reads past the end of the TLV section, which
the image ends with), captures the 32 bytes of each `type = 0x10, len = 32`
entry as the identity hash and skips every other entry by its length,
returning `(version, hash)` on success and failing with `IdHashMissing`
when no SHA-256 entry exists. -/
theorem get_image_info_tlv_walk (loadAddr flags : Nat) (v : ImageVersion)
    (imgBody : List Nat) (entries : List TlvEntry)
    (hla : loadAddr < 4294967296) (hfl : flags < 4294967296)
    (hrev : v.revision < 65536) (hbn : v.buildNum < 4294967296)
    (himg : imgBody.length < 4294967296)
    (hes : ∀ e ∈ entries, e.payload.length < 65536)
    (htot : 4 + tlvEntriesSize entries < 65536) :
    get_image_info (mkMcubootImage loadAddr flags v imgBody entries) =
      match lastShaHash entries with
      | some idHash => Except.ok ⟨v, idHash⟩
      | none => Except.error ImageParseError.idHashMissing := by
  rcases v with ⟨vmaj, vmin, vrev, vbn⟩
  set d := mkMcubootImage loadAddr flags ⟨vmaj, vmin, vrev, vbn⟩ imgBody entries with hdd
  have h0 : d.drop 0 = u32le 0x96f3b83d ++ (u32le loadAddr ++ (u16le 32 ++ (u16le 0 ++
      (u32le imgBody.length ++ (u32le flags ++ (vmaj :: ([vmin] ++ (u16le vrev ++
      (u32le vbn ++ ([0, 0, 0, 0] ++ (imgBody ++ (u16le 0x6907 ++
      (u16le (4 + tlvEntriesSize entries) ++ tlvEntriesBytes entries))))))))))))) := by
    simp [hdd, mkMcubootImage]
  have e1 : readU32le ⟨d, 0⟩ = some (0x96f3b83d, ⟨d, 4⟩) :=
    readU32le_at (by norm_num) h0
  have h1 : d.drop 4 = u32le loadAddr ++ (u16le 32 ++ (u16le 0 ++
      (u32le imgBody.length ++ (u32le flags ++ (vmaj :: ([vmin] ++ (u16le vrev ++
      (u32le vbn ++ ([0, 0, 0, 0] ++ (imgBody ++ (u16le 0x6907 ++
      (u16le (4 + tlvEntriesSize entries) ++ tlvEntriesBytes entries)))))))))))) := by
    simpa using drop_chunk _ h0
  have e2 : readU32le ⟨d, 4⟩ = some (loadAddr, ⟨d, 8⟩) := readU32le_at hla h1
  have h2 : d.drop 8 = u16le 32 ++ (u16le 0 ++
      (u32le imgBody.length ++ (u32le flags ++ (vmaj :: ([vmin] ++ (u16le vrev ++
      (u32le vbn ++ ([0, 0, 0, 0] ++ (imgBody ++ (u16le 0x6907 ++
      (u16le (4 + tlvEntriesSize entries) ++ tlvEntriesBytes entries))))))))))) := by
    simpa using drop_chunk _ h1
  have e3 : readU16le ⟨d, 8⟩ = some (32, ⟨d, 10⟩) := readU16le_at (by norm_num) h2
  have h3 : d.drop 10 = u16le 0 ++
      (u32le imgBody.length ++ (u32le flags ++ (vmaj :: ([vmin] ++ (u16le vrev ++
      (u32le vbn ++ ([0, 0, 0, 0] ++ (imgBody ++ (u16le 0x6907 ++
      (u16le (4 + tlvEntriesSize entries) ++ tlvEntriesBytes entries)))))))))) := by
    simpa using drop_chunk _ h2
  have e4 : readU16le ⟨d, 10⟩ = some (0, ⟨d, 12⟩) := readU16le_at (by norm_num) h3
  have h4 : d.drop 12 =
      u32le imgBody.length ++ (u32le flags ++ (vmaj :: ([vmin] ++ (u16le vrev ++
      (u32le vbn ++ ([0, 0, 0, 0] ++ (imgBody ++ (u16le 0x6907 ++
      (u16le (4 + tlvEntriesSize entries) ++ tlvEntriesBytes entries))))))))) := by
    simpa using drop_chunk _ h3
  have e5 : readU32le ⟨d, 12⟩ = some (imgBody.length, ⟨d, 16⟩) := readU32le_at himg h4
  have h5 : d.drop 16 = u32le flags ++ (vmaj :: ([vmin] ++ (u16le vrev ++
      (u32le vbn ++ ([0, 0, 0, 0] ++ (imgBody ++ (u16le 0x6907 ++
      (u16le (4 + tlvEntriesSize entries) ++ tlvEntriesBytes entries)))))))) := by
    simpa using drop_chunk _ h4
  have e6 : readU32le ⟨d, 16⟩ = some (flags, ⟨d, 20⟩) := readU32le_at hfl h5
  have h6 : d.drop 20 = vmaj :: ([vmin] ++ (u16le vrev ++
      (u32le vbn ++ ([0, 0, 0, 0] ++ (imgBody ++ (u16le 0x6907 ++
      (u16le (4 + tlvEntriesSize entries) ++ tlvEntriesBytes entries))))))) := by
    simpa using drop_chunk _ h5
  have e7 : readU8 ⟨d, 20⟩ = some (vmaj, ⟨d, 21⟩) := readU8_at h6
  have h7 : d.drop 21 = vmin :: (u16le vrev ++
      (u32le vbn ++ ([0, 0, 0, 0] ++ (imgBody ++ (u16le 0x6907 ++
      (u16le (4 + tlvEntriesSize entries) ++ tlvEntriesBytes entries)))))) := by
    simpa using drop_chunk [vmaj] (by simpa using h6)
  have e8 : readU8 ⟨d, 21⟩ = some (vmin, ⟨d, 22⟩) := readU8_at h7
  have h8 : d.drop 22 = u16le vrev ++
      (u32le vbn ++ ([0, 0, 0, 0] ++ (imgBody ++ (u16le 0x6907 ++
      (u16le (4 + tlvEntriesSize entries) ++ tlvEntriesBytes entries))))) := by
    simpa using drop_chunk [vmin] (by simpa using h7)
  have e9 : readU16le ⟨d, 22⟩ = some (vrev, ⟨d, 24⟩) := readU16le_at hrev h8
  have h9 : d.drop 24 =
      u32le vbn ++ ([0, 0, 0, 0] ++ (imgBody ++ (u16le 0x6907 ++
      (u16le (4 + tlvEntriesSize entries) ++ tlvEntriesBytes entries)))) := by
    simpa using drop_chunk _ h8
  have e10 : readU32le ⟨d, 24⟩ = some (vbn, ⟨d, 28⟩) := readU32le_at hbn h9
  have h10 : d.drop 28 = [0, 0, 0, 0] ++ (imgBody ++ (u16le 0x6907 ++
      (u16le (4 + tlvEntriesSize entries) ++ tlvEntriesBytes entries))) := by
    simpa using drop_chunk _ h9
  have h11 : d.drop 32 = imgBody ++ (u16le 0x6907 ++
      (u16le (4 + tlvEntriesSize entries) ++ tlvEntriesBytes entries)) := by
    simpa using drop_chunk [0, 0, 0, 0] h10
  have h12 : d.drop (32 + imgBody.length) = u16le 0x6907 ++
      (u16le (4 + tlvEntriesSize entries) ++ tlvEntriesBytes entries) :=
    drop_chunk imgBody h11
  have e11 : readU16le ⟨d, 32 + imgBody.length⟩ =
      some (0x6907, ⟨d, 32 + imgBody.length + 2⟩) := readU16le_at (by norm_num) h12
  have h13 : d.drop (32 + imgBody.length + 2) =
      u16le (4 + tlvEntriesSize entries) ++ tlvEntriesBytes entries := by
    simpa using drop_chunk _ h12
  have e12 : readU16le ⟨d, 32 + imgBody.length + 2⟩ =
      some (4 + tlvEntriesSize entries, ⟨d, 32 + imgBody.length + 2 + 2⟩) :=
    readU16le_at htot h13
  have h14 : d.drop (32 + imgBody.length + 2 + 2) = tlvEntriesBytes entries := by
    simpa using drop_chunk _ h13
  have hwalk := tlvWalk_spec d entries (32 + imgBody.length + 2 + 2)
    (4 + tlvEntriesSize entries) 0 (4 + tlvEntriesSize entries) none h14
    (by omega) hes
    (le_trans (tlvEntriesSize_ge_length entries) (by omega))
  simp only [get_image_info, e1, e2, e3, e4, e5, e6, e7, e8, e9, e10, seekStart,
    Nat.add_zero, e11, e12, hwalk, lastShaHash]
  generalize List.foldl
    (fun a e => if e.ty = 16 ∧ e.payload.length = 32 then some e.payload else a)
    none entries = res
  cases res <;> rfl

/-- Witness for C8: a concrete image with an unknown-type entry, a SHA-256
entry, and a trailing zero-length entry (whose 4-byte header is the last
thing the guard lets the walk read) parses to its version and the SHA
payload. -/
theorem get_image_info_tlv_walk_witness :
    get_image_info (mkMcubootImage 5 0 ⟨1, 2, 3, 0⟩ [7, 7, 7]
        [⟨0x22, [9]⟩, ⟨0x10, List.range 32⟩, ⟨3, []⟩]) =
      Except.ok ⟨⟨1, 2, 3, 0⟩, List.range 32⟩ := by
  have h := get_image_info_tlv_walk 5 0 ⟨1, 2, 3, 0⟩ [7, 7, 7]
    [⟨0x22, [9]⟩, ⟨0x10, List.range 32⟩, ⟨3, []⟩]
    (by norm_num) (by norm_num) (by norm_num) (by norm_num) (by decide)
    (by decide) (by decide)
  rw [h]
  rfl

/-! ## C9: firmware-update already-installed short-circuit -/

/-- C9: when the active `image == 0, slot == 0` entry of the device image
state carries the same hash as the identity hash parsed from the firmware
image, `firmware_update` fails with `AlreadyInstalled` and its device
interaction trace contains no upload. -/
theorem firmware_update_already_installed (params : FirmwareUpdateParams)
    (dev : DeviceEnv) (firmware : List Nat) (info : ImageInfo)
    (entries : List ImageStateEntry) (entry : ImageStateEntry)
    (hboot : params.bootloaderType = none → dev.bootloaderInfo = .ok (.ok .mcuBoot))
    (hstate : dev.imageState = .ok entries)
    (hparse : get_image_info firmware = .ok info)
    (hfind : entries.find? (fun img => img.image == 0 && img.slot == 0) = some entry)
    (hhash : entry.hash = some info.hash) :
    (firmware_update params dev firmware).1 = .error .alreadyInstalled ∧
    Action.upload ∉ (firmware_update params dev firmware).2 := by
  rcases hbt : params.bootloaderType with - | bt
  · have hbi := hboot hbt
    constructor
    · simp [firmware_update, hbt, hbi, hstate, hparse, hfind, hhash]
    · simp [firmware_update, hbt, hbi, hstate, hparse, hfind, hhash]
  · constructor
    · simp [firmware_update, hbt, hstate, hparse, hfind, hhash]
    · simp [firmware_update, hbt, hstate, hparse, hfind, hhash]

/-- Witness for C9: with a firmware image whose identity hash equals the
hash of the device's `image 0, slot 0` state entry, the update aborts with
`AlreadyInstalled` and the trace holds no upload. -/
theorem firmware_update_already_installed_witness :
    (firmware_update ⟨some .mcuBoot, false, false, false⟩
        ⟨.ok (.ok .mcuBoot),
         .ok [⟨0, 0, "v1", some (List.range 32), true, false, true, true, false⟩],
         .ok (), .ok (), .ok [], .ok ()⟩
        (mkMcubootImage 5 0 ⟨1, 2, 3, 0⟩ [7, 7, 7]
          [⟨0x22, [9]⟩, ⟨0x10, List.range 32⟩, ⟨3, []⟩])).1 =
      .error .alreadyInstalled ∧
    Action.upload ∉
      (firmware_update ⟨some .mcuBoot, false, false, false⟩
        ⟨.ok (.ok .mcuBoot),
         .ok [⟨0, 0, "v1", some (List.range 32), true, false, true, true, false⟩],
         .ok (), .ok (), .ok [], .ok ()⟩
        (mkMcubootImage 5 0 ⟨1, 2, 3, 0⟩ [7, 7, 7]
          [⟨0x22, [9]⟩, ⟨0x10, List.range 32⟩, ⟨3, []⟩])).2 :=
  firmware_update_already_installed ⟨some .mcuBoot, false, false, false⟩
    ⟨.ok (.ok .mcuBoot),
     .ok [⟨0, 0, "v1", some (List.range 32), true, false, true, true, false⟩],
     .ok (), .ok (), .ok [], .ok ()⟩
    (mkMcubootImage 5 0 ⟨1, 2, 3, 0⟩ [7, 7, 7]
      [⟨0x22, [9]⟩, ⟨0x10, List.range 32⟩, ⟨3, []⟩])
    ⟨⟨1, 2, 3, 0⟩, List.range 32⟩
    [⟨0, 0, "v1", some (List.range 32), true, false, true, true, false⟩]
    ⟨0, 0, "v1", some (List.range 32), true, false, true, true, false⟩
    (fun h => Option.noConfusion h) rfl (by rfl) rfl rfl

end ZephyrMcumgr
